import Mathlib

/-!
Verification of the csv2fhir row-to-resource mapping engine.

This file gives a shallow embedding, in Lean, of the core of the Go
program: path parsing (internal/config/mapping.go ParsePath), variable
substitution (SubstituteVariables / extractVariables), column validation
(ValidateColumns), the reflective object-graph mutator
(internal/transform/transform.go setNestedFieldValue / setFinalValue),
row transformation (Transform), the output writer
(internal/output/writer.go), the result-consumer loop of main.go, and
the CSV row source (internal/csv/reader.go).

Modelling conventions:
 - Go strings are `List Char` (ASCII in all relevant inputs).
 - Go maps used as read-only configuration (mappings, defaults, rows)
   are association lists; Go map iteration order is unspecified, and the
   list order is a fixed determinization of it.  All theorems below are
   either order-insensitive or use single-entry maps.
 - Fallible Go functions returning (T, error) become `Except String T`
   (or a pair when the Go caller reads the partial result).
 - Go reflection over the external FHIR struct catalog (an external
   collaborator of the program) is embedded as an explicit first-order
   universe of Go types and values (`GoType` / `GoVal`); the registry of
   resource shapes is a parameter, instantiated with a representative
   fragment of the catalog for concrete runs.
-/

namespace Csv2Fhir

/-- Go strings, modelled as character lists. -/
abbrev Str := List Char

/-- Association-list lookup, modelling read access `m[k]` on a Go map. -/
def lookupA {α : Type} (l : List (Str × α)) (k : Str) : Option α :=
  match l with
  | [] => none
  | (k', v) :: rest => if k' = k then some v else lookupA rest k

/-- Association-list update-or-append, modelling `m[k] = v` on a Go map. -/
def setA {α : Type} (l : List (Str × α)) (k : Str) (v : α) : List (Str × α) :=
  match l with
  | [] => [(k, v)]
  | (k', v') :: rest => if k' = k then (k, v) :: rest else (k', v') :: setA rest k v

/-- Whether the character list contains two consecutive dots, modelling
the Go call strings.Contains(path, "..") in ParsePath. -/
def hasDotDot : Str → Bool
  | '.' :: '.' :: _ => true
  | _ :: rest => hasDotDot rest
  | [] => false

/-- Whether the character list contains a dollar directly followed by an
opening brace, modelling strings.Contains(value, "$" + "{") in Transform. -/
def hasDollarBrace : Str → Bool
  | '$' :: '{' :: _ => true
  | _ :: rest => hasDollarBrace rest
  | [] => false

/-- Numeric value of a run of decimal digit characters. -/
def digitsVal (ds : Str) : Nat :=
  ds.foldl (fun a c => 10 * a + (c.toNat - 48)) 0

/-- fmt.Sscanf with the verb for a decimal integer: skip leading white
space, an optional sign, then at least one decimal digit; trailing
characters are ignored (Sscanf leaves them unconsumed without error). -/
def scanInt (s : Str) : Option Int :=
  let s := s.dropWhile Char.isWhitespace
  let core : Str → Option Nat := fun t =>
    let ds := t.takeWhile Char.isDigit
    if ds = [] then none else some (digitsVal ds)
  match s with
  | '-' :: rest => (core rest).map (fun n => -(n : Int))
  | '+' :: rest => (core rest).map (fun n => (n : Int))
  | _ => (core s).map (fun n => (n : Int))

/-- strconv.ParseInt with base 10: an optional sign followed by one or
more decimal digits and nothing else (the 64-bit range check is outside
the embedded fragment; no claim involves literals of that size). -/
def parseInt10 (s : Str) : Option Int :=
  let core : Str → Option Nat := fun t =>
    if t ≠ [] ∧ t.all Char.isDigit then some (digitsVal t) else none
  match s with
  | '-' :: rest => (core rest).map (fun n => -(n : Int))
  | '+' :: rest => (core rest).map (fun n => (n : Int))
  | _ => (core s).map (fun n => (n : Int))

/-- strconv.ParseBool: the exact set of literals Go accepts. -/
def parseGoBool (s : Str) : Option Bool :=
  if s = "1".toList ∨ s = "t".toList ∨ s = "T".toList ∨ s = "TRUE".toList ∨
     s = "true".toList ∨ s = "True".toList then some true
  else if s = "0".toList ∨ s = "f".toList ∨ s = "F".toList ∨ s = "FALSE".toList ∨
     s = "false".toList ∨ s = "False".toList then some false
  else none

/-- strings.Split on a single separator character. -/
def splitOnChar (c : Char) : Str → List Str
  | [] => [[]]
  | x :: xs =>
    let rest := splitOnChar c xs
    if x = c then [] :: rest
    else match rest with
      | [] => [[x]]
      | r :: rs => (x :: r) :: rs

/-- strings.Index: position of the first occurrence of a character. -/
def idxOf (c : Char) : Str → Option Nat
  | [] => none
  | x :: xs => if x = c then some 0 else (idxOf c xs).map (· + 1)

/-- PathSegment from internal/config/mapping.go: a field name and an
optional array index (a Go int, carried by pointer in the source). -/
structure PathSegment where
  field : Str
  index : Option Int
  deriving Repr, DecidableEq

/-- The per-part body of the ParsePath loop: empty-part check, then the
bracketed-index branch (first occurrences of the two brackets, the
Sscanf decode of the index text, and the sign and 1000 bounds), else a
plain field segment. -/
def parseSegment (part : Str) : Except String PathSegment :=
  if part = [] then .error "empty field name in path"
  else if part.contains '[' then
    match idxOf '[' part, idxOf ']' part with
    | some openIdx, some closeIdx =>
      if closeIdx < openIdx then .error "invalid array notation in path"
      else
        let field := part.take openIdx
        let indexStr := (part.drop (openIdx + 1)).take (closeIdx - openIdx - 1)
        match scanInt indexStr with
        | none => .error "invalid array index in path"
        | some index =>
          if index < 0 then .error "negative array index not allowed in path"
          else if index > 1000 then .error "array index exceeds maximum of 1000 in path"
          else .ok { field := field, index := some index }
    | _, none => .error "invalid array notation in path"
    | none, _ => .error "invalid array notation in path"
  else .ok { field := part, index := none }

/-- The segment-collecting loop of ParsePath (first error wins, Go
appends in part order). -/
def parseSegments : List Str → Except String (List PathSegment)
  | [] => .ok []
  | p :: ps =>
    match parseSegment p with
    | .error e => .error e
    | .ok seg =>
      match parseSegments ps with
      | .error e => .error e
      | .ok rest => .ok (seg :: rest)

/-- ParsePath from internal/config/mapping.go: the empty / leading dot /
trailing dot / consecutive dots rejections, then strings.Split on the
dot and the per-part loop. -/
def ParsePath (path : Str) : Except String (List PathSegment) :=
  if path = [] then .error "path cannot be empty"
  else if path.head? = some '.' then .error "path cannot start with a dot"
  else if path.getLast? = some '.' then .error "path cannot end with a dot"
  else if hasDotDot path then .error "path cannot contain consecutive dots"
  else parseSegments (splitOnChar '.' path)

/-!
Variable substitution.  The Go source compiles the regular expression
matching a dollar, an opening brace, one or more characters other than a
closing brace, and a closing brace; SubstituteVariables replaces each
match (left to right, non-overlapping) and extractVariables collects the
captured names of the same matches.  The scanner below is that regular
expression's leftmost non-overlapping match loop, written as a character
state machine: `normal` outside a candidate match, `dollar` directly
after a dollar sign, `body acc` after dollar-brace with `acc` the
(reversed) characters of the candidate name read so far.  A candidate
with no closing brace before end of input, or with an empty body, is not
a match and its text is passed through unchanged, exactly as the regular
expression does.
-/

/-- One token of a template: literal text or a variable reference. -/
inductive Tok where
  | lit (text : Str)
  | var (name : Str)
  deriving Repr, DecidableEq

/-- Scanner state for the template regular expression. -/
inductive TokState where
  | normal
  | dollar
  | body (acc : Str)
  deriving Repr, DecidableEq

/-- The match loop of the template regular expression (see above). -/
def tokAux : TokState → Str → List Tok
  | .normal, [] => []
  | .normal, c :: rest =>
    if c = '$' then tokAux .dollar rest
    else .lit [c] :: tokAux .normal rest
  | .dollar, [] => [.lit ['$']]
  | .dollar, c :: rest =>
    if c = '{' then tokAux (.body []) rest
    else if c = '$' then .lit ['$'] :: tokAux .dollar rest
    else .lit ['$'] :: .lit [c] :: tokAux .normal rest
  | .body acc, [] => [.lit ('$' :: '{' :: acc.reverse)]
  | .body acc, c :: rest =>
    if c = '}' then
      if acc = [] then .lit ['$', '{', '}'] :: tokAux .normal rest
      else .var acc.reverse :: tokAux .normal rest
    else tokAux (.body (c :: acc)) rest

/-- Tokenization of a template into literal runs and variable matches. -/
def tokenize (s : Str) : List Tok := tokAux .normal s

/-- The source text a token stands for (a variable token stands for its
original dollar-brace-name-brace text). -/
def tokText : Tok → Str
  | .lit t => t
  | .var n => '$' :: '{' :: (n ++ ['}'])

/-- Replacement of one token against a row, as in the function literal
passed to ReplaceAllStringFunc: a found column's value, otherwise the
original match text. -/
def renderTok (row : List (Str × Str)) : Tok → Str
  | .lit t => t
  | .var n =>
    match lookupA row n with
    | some v => v
    | none => '$' :: '{' :: (n ++ ['}'])

/-- The missing-variable names a token contributes. -/
def missOf (row : List (Str × Str)) : Tok → List Str
  | .lit _ => []
  | .var n =>
    match lookupA row n with
    | some _ => []
    | none => [n]

/-- SubstituteVariables from internal/config/mapping.go: the substituted
string together with the missing-column list (the Go function returns a
non-nil error exactly when that list is non-empty, and the caller also
receives the partially substituted result). -/
def SubstituteVariables (template : Str) (row : List (Str × Str)) : Str × List Str :=
  let toks := tokenize template
  (toks.flatMap (renderTok row), toks.flatMap (missOf row))

/-- extractVariables from internal/config/mapping.go: the captured names
of all matches of the template regular expression. -/
def extractVariables (template : Str) : List Str :=
  (tokenize template).flatMap (fun t => match t with | .var n => [n] | .lit _ => [])

/-- MappingConfig from internal/config/mapping.go (the YAML-level file
loading is an external collaborator; csvColumns is the attached
ColumnSet, a set of names modelled as a list). -/
structure MappingConfig where
  resource : Str
  idColumn : Str
  mappings : List (Str × Str)
  defaults : List (Str × Str)
  csvColumns : List Str
  deriving Repr

/-- The missing-column set collected by ValidateColumns: the id column
when absent, plus every variable of every mapping template that is not a
known CSV column.  The source collects these in a Go map used as a set;
only emptiness is observable through the function's result, so the
collection is modelled as a list (possibly with repeats). -/
def missingColumns (m : MappingConfig) : List Str :=
  (if m.idColumn ≠ [] ∧ ¬ m.csvColumns.contains m.idColumn then [m.idColumn] else [])
    ++ (m.mappings.flatMap (fun pv => extractVariables pv.2)).filter
        (fun c => ¬ m.csvColumns.contains c)

/-- ValidateColumns from internal/config/mapping.go: error when any
referenced column is missing.  Note the source checks the id column and
the mapping templates only; default templates are not inspected. -/
def ValidateColumns (m : MappingConfig) : Except String Unit :=
  if missingColumns m = [] then .ok () else .error "missing CSV columns"

/-!
The reflective object graph.  setNestedFieldValue and setFinalValue in
internal/transform/transform.go walk Go values through the reflect
package.  The embedding makes the reflective universe explicit: a
GoType describes a struct shape as reflection reports it (field kinds:
string, integer, boolean, pointer, slice, struct, and named types that
implement the json.Unmarshaler interface, written `custom` with their
accepted code strings and underlying kind), and a GoVal is a value of
that universe.  Field lists are their own inductive so all functions
below are structural and computable.  Mutation-in-place becomes
functional update: each operation returns the updated graph.  Floating
point fields (reflect.Float) exist in the source's final switch but are
outside the embedded fragment; no claim concerns them.
-/

mutual
inductive GoType where
  | str
  | int
  | boolean
  | ptr (elem : GoType)
  | slice (elem : GoType)
  | strukt (fields : GoTypeFields)
  | custom (codes : List Str) (underlying : GoType)
  deriving Repr
inductive GoTypeFields where
  | nil
  | cons (name : Str) (t : GoType) (rest : GoTypeFields)
  deriving Repr
end

mutual
inductive GoVal where
  | str (s : Str)
  | int (n : Int)
  | boolean (b : Bool)
  | ptrNil
  | ptrVal (v : GoVal)
  | slice (elems : GoValList)
  | strukt (fields : GoValFields)
  deriving Repr, DecidableEq
inductive GoValList where
  | nil
  | cons (v : GoVal) (rest : GoValList)
  deriving Repr, DecidableEq
inductive GoValFields where
  | nil
  | cons (name : Str) (v : GoVal) (rest : GoValFields)
  deriving Repr, DecidableEq
end

/-- Field-type lookup by exact name (reflect FieldByName). -/
def lookupTF : GoTypeFields → Str → Option GoType
  | .nil, _ => none
  | .cons n t rest, k => if n = k then some t else lookupTF rest k

/-- Field-value lookup by exact name. -/
def lookupF : GoValFields → Str → Option GoVal
  | .nil, _ => none
  | .cons n v rest, k => if n = k then some v else lookupF rest k

/-- Field-value update by exact name (append when absent; conforming
values always carry all declared fields). -/
def setF : GoValFields → Str → GoVal → GoValFields
  | .nil, k, nv => .cons k nv .nil
  | .cons n v rest, k, nv =>
    if n = k then .cons n nv rest else .cons n v (setF rest k nv)

/-- Slice length (reflect Len). -/
def lenV : GoValList → Nat
  | .nil => 0
  | .cons _ rest => lenV rest + 1

/-- Slice element read with default (reflect Index on a valid index). -/
def getDV : GoValList → Nat → GoVal → GoVal
  | .nil, _, d => d
  | .cons v _, 0, _ => v
  | .cons _ rest, n + 1, d => getDV rest n d

/-- Slice element replacement. -/
def setAtV : GoValList → Nat → GoVal → GoValList
  | .nil, _, _ => .nil
  | .cons _ rest, 0, nv => .cons nv rest
  | .cons v rest, n + 1, nv => .cons v (setAtV rest n nv)

/-- Slice concatenation (reflect Copy of the old prefix into a larger
fresh slice preserves the old elements in order). -/
def appendV : GoValList → GoValList → GoValList
  | .nil, r => r
  | .cons v rest, r => .cons v (appendV rest r)

/-- n zero elements (reflect MakeSlice zero-fills new elements). -/
def replicateV : Nat → GoVal → GoValList
  | 0, _ => .nil
  | n + 1, z => .cons z (replicateV n z)

mutual
/-- The zero value of a type, as reflect.New / MakeSlice produce it:
empty string, zero, false, nil pointer, empty slice, struct of zero
fields; a named custom type's zero is its underlying kind's zero. -/
def zeroVal : GoType → GoVal
  | .str => .str []
  | .int => .int 0
  | .boolean => .boolean false
  | .ptr _ => .ptrNil
  | .slice _ => .slice .nil
  | .strukt fields => .strukt (zeroFields fields)
  | .custom _ u => zeroVal u
def zeroFields : GoTypeFields → GoValFields
  | .nil => .nil
  | .cons n t rest => .cons n (zeroVal t) (zeroFields rest)
end

/-- Go capitalization of the first byte of the path field name
(strings.ToUpper on a one-character slice). -/
def capFirst : Str → Str
  | [] => []
  | c :: cs => c.toUpper :: cs

/-- strings.ToLower. -/
def lowerStr (s : Str) : Str := s.map Char.toLower

/-- The kind-based switch at the end of setFinalValue: string verbatim,
integer via strconv.ParseInt, boolean via strconv.ParseBool, a plain
struct rejects a quoted-string JSON payload, anything else is an
unsupported field kind.  A named custom type reports its underlying
kind to reflect, so the switch acts on the underlying kind.  The
pointer arm is unreachable (pointers are unwrapped before the switch in
the source). -/
def coerceKind : GoType → Str → Except String GoVal
  | .custom _ u, value => coerceKind u value
  | .str, value => .ok (.str value)
  | .int, value =>
    match parseInt10 value with
    | some n => .ok (.int n)
    | none => .error "cannot convert to int"
  | .boolean, value =>
    match parseGoBool value with
    | some b => .ok (.boolean b)
    | none => .error "cannot convert to bool"
  | .strukt _, _ => .error "cannot set struct field with value"
  | .ptr _, _ => .error "unsupported field type"
  | .slice _, _ => .error "unsupported field type"

/-- setFinalValue from internal/transform/transform.go: allocate and
descend through a pointer; for a type implementing json.Unmarshaler,
marshal the literal to a quoted JSON string and attempt the type's own
decoder — the samply FHIR enum decoders unquote the payload and match
it against the type's code list, storing the matched constant (its
position in the declaration order) — and when the decoder errors, FALL
THROUGH to the kind switch; otherwise the kind switch directly. -/
def setFinalValue : GoType → GoVal → Str → Except String GoVal
  | .ptr te, v, value =>
    let inner := match v with | .ptrVal iv => iv | _ => zeroVal te
    match setFinalValue te inner value with
    | .error e => .error e
    | .ok r => .ok (.ptrVal r)
  | .custom codes u, _, value =>
    match codes.indexOf? value with
    | some i => .ok (.int (i : Int))
    | none => coerceKind (.custom codes u) value
  | t, _, value => coerceKind t value

/-- The pointer-dereference loop at the head of setNestedFieldValue: a
nil pointer is an error, otherwise unwrap every pointer layer. -/
def stripPtrs : GoType → GoVal → Except String (GoType × GoVal)
  | .ptr te, v =>
    match v with
    | .ptrNil => .error "nil pointer encountered"
    | .ptrVal iv => stripPtrs te iv
    | _ => .error "value does not conform to pointer type"
  | t, v => .ok (t, v)

/-- Re-wrapping of an updated inner value into the pointer layers the
dereference loop unwrapped (the source mutates through the pointers in
place; the functional model rebuilds them). -/
def rewrapPtrs : GoType → GoVal → GoVal → GoVal
  | .ptr te, .ptrVal iv, r => .ptrVal (rewrapPtrs te iv r)
  | _, _, r => r

/-- setNestedFieldValue from internal/transform/transform.go: reject an
empty segment list and an empty field name; dereference pointers;
resolve the capitalized field name in the struct; with an index the
field must be a slice, grown zero-filled to index+1 preserving existing
elements when too short, a nil pointer element is allocated, and the
walk continues into (or finishes at) the element; without an index the
last segment coerces the literal into the field, otherwise the walk
continues through a pointer field (allocated when nil) or a struct
field, and any other field kind cannot be navigated.  Failures
propagate; on success the updated graph is returned (the source mutates
the same spine in place). -/
def setNestedFieldValue : GoType → GoVal → List PathSegment → Str → Except String GoVal
  | _, _, [], _ => .error "empty path"
  | t, v, seg :: rest, value =>
    match stripPtrs t v with
    | .error e => .error e
    | .ok (t', v') =>
      match t', v' with
      | .strukt ftypes, .strukt fvals =>
        if seg.field = [] then .error "empty field name in path"
        else
          let fieldName := capFirst seg.field
          match lookupTF ftypes fieldName with
          | none => .error "field not found"
          | some ft =>
            let fv := (lookupF fvals fieldName).getD (zeroVal ft)
            let write := fun (newFv : GoVal) =>
              rewrapPtrs t v (.strukt (setF fvals fieldName newFv))
            match seg.index with
            | some i =>
              match ft with
              | .slice elemT =>
                let n := i.toNat
                let elems := match fv with | .slice es => es | _ => GoValList.nil
                let elems :=
                  if lenV elems ≤ n then
                    appendV elems (replicateV (n + 1 - lenV elems) (zeroVal elemT))
                  else elems
                let elem := getDV elems n (zeroVal elemT)
                let elem :=
                  match elemT, elem with
                  | .ptr inner, .ptrNil => .ptrVal (zeroVal inner)
                  | _, e => e
                let res :=
                  match rest with
                  | [] => setFinalValue elemT elem value
                  | _ => setNestedFieldValue elemT elem rest value
                match res with
                | .error e => .error e
                | .ok newElem => .ok (write (.slice (setAtV elems n newElem)))
              | _ => .error "field is not a slice or array"
            | none =>
              match rest with
              | [] =>
                match setFinalValue ft fv value with
                | .error e => .error e
                | .ok newFv => .ok (write newFv)
              | _ =>
                match ft with
                | .ptr inner =>
                  let fv := match fv with | .ptrNil => .ptrVal (zeroVal inner) | x => x
                  match setNestedFieldValue ft fv rest value with
                  | .error e => .error e
                  | .ok newFv => .ok (write newFv)
                | .strukt _ =>
                  match setNestedFieldValue ft fv rest value with
                  | .error e => .error e
                  | .ok newFv => .ok (write newFv)
                | _ => .error "cannot navigate through field"
      | _, _ => .error "field lookup on non-struct value"

/-- setFieldValue from internal/transform/transform.go: parse the path,
then walk-and-mutate. -/
def setFieldValue (t : GoType) (resource : GoVal) (path : Str) (value : Str) :
    Except String GoVal :=
  match ParsePath path with
  | .error e => .error e
  | .ok segs => setNestedFieldValue t resource segs value

/-- GetResourceType from the transform registry: exact map hit first,
then a case-insensitive scan. -/
def GetResourceType (reg : List (Str × GoType)) (name : Str) : Option GoType :=
  match lookupA reg name with
  | some t => some t
  | none => (reg.find? (fun kv => lowerStr kv.1 == lowerStr name)).map (·.2)

/-- createResource: registry lookup of the configured resource type
(unknown type is the error) and reflect.New of the shape, giving a
pointer to a zeroed instance. -/
def createResource (reg : List (Str × GoType)) (resourceName : Str) :
    Except String (GoType × GoVal) :=
  match GetResourceType reg resourceName with
  | none => .error "unsupported resource type"
  | some T => .ok (.ptr T, .ptrVal (zeroVal T))

/-- setResourceID: dereference the resource pointer once, find the Id
field, store the id through a pointer field or directly into a string
field. -/
def setResourceID (t : GoType) (v : GoVal) (id : Str) : Except String GoVal :=
  let core := fun (ftypes : GoTypeFields) (fvals : GoValFields) =>
    match lookupTF ftypes ("Id".toList) with
    | none => Except.error "resource has no Id field"
    | some (.ptr _) => Except.ok (setF fvals ("Id".toList) (.ptrVal (.str id)))
    | some _ => Except.ok (setF fvals ("Id".toList) (.str id))
  match t, v with
  | .ptr (.strukt ftypes), .ptrVal (.strukt fvals) =>
    match core ftypes fvals with
    | .error e => .error e
    | .ok fvals' => .ok (.ptrVal (.strukt fvals'))
  | .strukt ftypes, .strukt fvals =>
    match core ftypes fvals with
    | .error e => .error e
    | .ok fvals' => .ok (.strukt fvals')
  | _, _ => .error "resource has no Id field"

/-- The defaults loop of Transform: substitute, tolerate a substitution
failure only when the template text holds no dollar-brace at all (a
branch that cannot fire, since a failure requires a matched
placeholder), then mutate; any error is fatal for the row. -/
def applyDefaults (t : GoType) (row : List (Str × Str)) :
    List (Str × Str) → GoVal → Except String GoVal
  | [], res => .ok res
  | (path, value) :: rest, res =>
    let sub := SubstituteVariables value row
    if sub.2 ≠ [] ∧ hasDollarBrace value then
      .error "failed to substitute variables in default"
    else
      match setFieldValue t res path sub.1 with
      | .error _ => .error "failed to set default"
      | .ok res' => applyDefaults t row rest res'

/-- The mappings loop of Transform: substitute (failure is fatal), skip
the mapping entirely when the substituted value is empty, else mutate. -/
def applyMappings (t : GoType) (row : List (Str × Str)) :
    List (Str × Str) → GoVal → Except String GoVal
  | [], res => .ok res
  | (path, value) :: rest, res =>
    let sub := SubstituteVariables value row
    if sub.2 ≠ [] then .error "failed to substitute variables in mapping"
    else if sub.1 = [] then applyMappings t row rest res
    else
      match setFieldValue t res path sub.1 with
      | .error _ => .error "failed to set mapping"
      | .ok res' => applyMappings t row rest res'

/-- Transform from internal/transform/transform.go: create the
resource, apply defaults, apply mappings (overriding defaults), then
assign the id when the id column is configured and present and
non-empty in the row.  The row sequence number only tags error
messages in the source.  Defaults and Mappings are Go maps; their
iteration order is unspecified and the association-list order stands in
for one such order. -/
def Transform (reg : List (Str × GoType)) (cfg : MappingConfig)
    (row : List (Str × Str)) (_rowNumber : Nat) : Except String GoVal :=
  match createResource reg cfg.resource with
  | .error _ => .error "failed to create resource: unsupported resource type"
  | .ok (t, res) =>
    match applyDefaults t row cfg.defaults res with
    | .error e => .error e
    | .ok res1 =>
      match applyMappings t row cfg.mappings res1 with
      | .error e => .error e
      | .ok res2 =>
        if cfg.idColumn ≠ [] then
          match lookupA row cfg.idColumn with
          | some id => if id ≠ [] then setResourceID t res2 id else .ok res2
          | none => .ok res2
        else .ok res2

/-!
Output writer (internal/output/writer.go, the NewWriterWithLimit
version main.go and the output tests use).  File handling and JSON
serialization are external collaborators: a resource enters Write
already serialized (a Str), the underlying io.Writer is a chunk list,
and writeBundle's single MarshalIndent-and-write of the whole Bundle is
one chunk holding every buffered entry in order.  The 90 percent
warning goes to stderr (diagnostics, not the sink) and only flips the
warnedLimit flag here; the source computes the threshold in float64
(truncated to int), here by Nat floor division, which agrees at every
magnitude the program reaches.
-/

/-- Output format. -/
inductive Format where
  | bundle
  | ndjson
  deriving Repr, DecidableEq

/-- Writer from internal/output/writer.go. -/
structure Writer where
  format : Format
  resources : List Str
  maxResources : Nat
  warnedLimit : Bool
  sink : List Str
  closed : Bool
  deriving Repr, DecidableEq

/-- NewWriterWithLimit: a non-positive limit falls back to 10000; the
writer starts with an empty buffer and an untouched sink. -/
def NewWriterWithLimit (format : Format) (maxResources : Int) : Writer :=
  { format := format
    resources := []
    maxResources := if maxResources ≤ 0 then 10000 else maxResources.toNat
    warnedLimit := false
    sink := []
    closed := false }

/-- Write: in NDJSON format the serialized resource and a newline go to
the sink immediately; in bundle format the count ceiling is enforced
(error once the buffer holds maxResources records) and otherwise the
record is only buffered, touching the sink not at all. -/
def Writer.WriteRes (w : Writer) (data : Str) : Except String Writer :=
  match w.format with
  | .ndjson => .ok { w with sink := w.sink ++ [data, ['\n']] }
  | .bundle =>
    let currentCount := w.resources.length
    let w :=
      if ¬ w.warnedLimit ∧ currentCount ≥ w.maxResources * 9 / 10 then
        { w with warnedLimit := true }
      else w
    if currentCount ≥ w.maxResources then .error "resource limit exceeded"
    else .ok { w with resources := w.resources ++ [data] }

/-- writeBundle's output: one chunk carrying every buffered entry in
order (the JSON text around them is the external encoder's framing). -/
def bundleRender (rs : List Str) : Str :=
  ("Bundle[".toList) ++ (List.intercalate (",".toList) rs) ++ ("]".toList)

/-- Close: idempotent (the closed flag), writes the whole Bundle in one
chunk when the format is bundle and the buffer is non-empty, then
closes the file (external). -/
def Writer.CloseW (w : Writer) : Writer :=
  if w.closed then w
  else
    let w := { w with closed := true }
    if w.format = .bundle ∧ w.resources ≠ [] then
      { w with sink := w.sink ++ [bundleRender w.resources] }
    else w

/-!
The consumer goroutine of main.go (lines 185-221): it drains the result
channel, logging and counting transform errors, applying the validation
level, writing surviving resources, and counting a write failure
without stopping — the loop proceeds to the next result in every case.
The channel delivery order is an arbitrary interleaving of worker
outputs; the model consumes an arbitrary list.
-/

/-- One (result or error) message from a worker. -/
structure ResultMsg where
  resource : Str
  validationErrors : List Str
  err : Option Str
  rowNumber : Nat
  deriving Repr

/-- The consumer's mutable state: the writer and the three counters. -/
structure RunState where
  writer : Writer
  rowCount : Nat
  errorCount : Nat
  validationErrorCount : Nat
  deriving Repr

/-- One iteration of the consumer loop: a transform error is counted
and the loop continues; validation issues are counted and, at level
error, the row is dropped (counted as an error); otherwise the resource
is written, a write failure being counted while rowCount still
advances. -/
def consumeOne (validationLevel : Str) (st : RunState) (res : ResultMsg) : RunState :=
  match res.err with
  | some _ => { st with errorCount := st.errorCount + 1 }
  | none =>
    if res.validationErrors ≠ [] ∧ validationLevel = "error".toList then
      { st with validationErrorCount := st.validationErrorCount + 1
                errorCount := st.errorCount + 1 }
    else
      let st :=
        if res.validationErrors ≠ [] then
          { st with validationErrorCount := st.validationErrorCount + 1 }
        else st
      match st.writer.WriteRes res.resource with
      | .error _ => { st with errorCount := st.errorCount + 1
                              rowCount := st.rowCount + 1 }
      | .ok w' => { st with writer := w', rowCount := st.rowCount + 1 }

/-- The consumer loop over the whole result stream. -/
def consumeResults (validationLevel : Str) (st : RunState) (results : List ResultMsg) :
    RunState :=
  results.foldl (consumeOne validationLevel) st

/-!
CSV row source (internal/csv/reader.go).  Tokenization and quoting are
the external encoding/csv collaborator: the model starts from the
record stream it yields (the first record is the header line).  Read
errors of the underlying reader end or abort the stream and are outside
the embedded fragment.
-/

/-- Row from internal/csv/reader.go: column map plus sequence number. -/
structure CsvRow where
  data : List (Str × Str)
  rowNumber : Nat
  deriving Repr

/-- Reader state: headers, the last handed-out row number, the data
records not yet read. -/
structure CsvReader where
  headers : List Str
  rowNumber : Nat
  pending : List (List Str)
  deriving Repr

/-- NewReader: the first record is the header row (none means the
header read failed and the constructor errors); rowNumber starts at 1 —
row 1 is the header, data starts at row 2. -/
def NewReader (records : List (List Str)) : Option CsvReader :=
  match records with
  | [] => none
  | h :: rest => some { headers := h, rowNumber := 1, pending := rest }

/-- The column map of one record: every header becomes a key, a missing
column an empty string. -/
def buildRow (headers : List Str) (record : List Str) : List (Str × Str) :=
  headers.enum.foldl (fun acc p => setA acc p.2 (record.getD p.1 [])) []

/-- Read: take the next record, advance the row number, build the map. -/
def CsvReader.ReadRow (r : CsvReader) : Option (CsvRow × CsvReader) :=
  match r.pending with
  | [] => none
  | rec :: rest =>
    some ({ data := buildRow r.headers rec, rowNumber := r.rowNumber + 1 },
          { r with rowNumber := r.rowNumber + 1, pending := rest })

/-- The rows ReadAll collects, starting from a given row number. -/
def readLoop (headers : List Str) (rowNumber : Nat) : List (List Str) → List CsvRow
  | [] => []
  | rec :: rest =>
    { data := buildRow headers rec, rowNumber := rowNumber + 1 }
      :: readLoop headers (rowNumber + 1) rest

/-- ReadAll from internal/csv/reader.go: drain the reader. -/
def readAllRows (r : CsvReader) : List CsvRow :=
  readLoop r.headers r.rowNumber r.pending

/-!
A representative fragment of the external samply golang-fhir-models
catalog the ResourceRegistry of the source points into (the shapes are
an external collaborator; spec section 6 treats the catalog as opaque).
ObservationStatus is a typical custom-codable enum: an int-kinded named
type whose json.Unmarshaler accepts exactly its code strings, in
declaration order.
-/

/-- The ObservationStatus code strings, in declaration order. -/
def obsStatusCodes : List Str :=
  ["registered".toList, "preliminary".toList, "final".toList, "amended".toList,
   "corrected".toList, "cancelled".toList, "entered-in-error".toList, "unknown".toList]

/-- ObservationStatus: custom-codable, underlying kind int. -/
def ObservationStatusT : GoType := .custom obsStatusCodes .int

/-- Coding (fragment): System and Code, both optional strings. -/
def CodingT : GoType :=
  .strukt (.cons ("System".toList) (.ptr .str)
    (.cons ("Code".toList) (.ptr .str) .nil))

/-- CodeableConcept (fragment): a Coding slice and an optional Text. -/
def CodeableConceptT : GoType :=
  .strukt (.cons ("Coding".toList) (.slice CodingT)
    (.cons ("Text".toList) (.ptr .str) .nil))

/-- Observation (fragment): optional Id, the Status enum, the required
Code concept, an optional ValueString. -/
def ObservationT : GoType :=
  .strukt (.cons ("Id".toList) (.ptr .str)
    (.cons ("Status".toList) ObservationStatusT
      (.cons ("Code".toList) CodeableConceptT
        (.cons ("ValueString".toList) (.ptr .str) .nil))))

/-- The registry fragment used for concrete runs. -/
def sampleRegistry : List (Str × GoType) := [("Observation".toList, ObservationT)]

/-!
Observers and concrete fixtures used by the theorems below.  The
observers read fields out of a built resource for statements; they are
spec-side views, not part of the embedded program.
-/

/-- The text a scanner state stands for, used to relate the tokenizer
to its input. -/
def statePending : TokState → Str
  | .normal => []
  | .dollar => ['$']
  | .body acc => '$' :: '{' :: acc.reverse

/-- Observer: the Status field of a built (pointer-rooted) resource. -/
def statusOf (v : GoVal) : Option GoVal :=
  match v with
  | .ptrVal (.strukt fs) => lookupF fs ("Status".toList)
  | _ => none

/-- Observer: a slice value as a Lean list. -/
def valListToList : GoValList → List GoVal
  | .nil => []
  | .cons v rest => v :: valListToList rest

/-- Observer: the Code of one Coding element. -/
def codingCodeOf (c : GoVal) : Option Str :=
  match c with
  | .strukt fs =>
    match lookupF fs ("Code".toList) with
    | some (.ptrVal (.str s)) => some s
    | _ => none
  | _ => none

/-- Observer: the Code.Coding codes of a built Observation. -/
def obsCodingCodes (v : GoVal) : List (Option Str) :=
  match v with
  | .ptrVal (.strukt fs) =>
    match lookupF fs ("Code".toList) with
    | some (.strukt cfs) =>
      match lookupF cfs ("Coding".toList) with
      | some (.slice es) => (valListToList es).map codingCodeOf
      | _ => []
    | _ => []
  | _ => []

/-- The pointer type of a freshly created Observation resource. -/
def tObsPtr : GoType := .ptr ObservationT

/-- The resource value createResource returns for Observation. -/
def obsRoot : GoVal := .ptrVal (zeroVal ObservationT)

/-- Two successive path applications on a fresh Observation. -/
def applyTwo (pa va pb vb : Str) : Except String GoVal :=
  match setFieldValue tObsPtr obsRoot pa va with
  | .error e => .error e
  | .ok r => setFieldValue tObsPtr r pb vb

/-- Configuration whose only column reference sits in a default
template and names a column absent from the attached ColumnSet. -/
def cfgDefaultMissing : MappingConfig :=
  { resource := "Observation".toList
    idColumn := []
    mappings := []
    defaults := [("status".toList, "${missing}".toList)]
    csvColumns := [] }

/-- Configuration with default status preliminary and mapping status
from the status column. -/
def cfg8 : MappingConfig :=
  { resource := "Observation".toList
    idColumn := []
    mappings := [("status".toList, "${status}".toList)]
    defaults := [("status".toList, "preliminary".toList)]
    csvColumns := ["status".toList] }

/-- Configuration naming a resource type absent from the registry. -/
def cfgUnknown : MappingConfig :=
  { resource := "Foo".toList
    idColumn := []
    mappings := []
    defaults := []
    csvColumns := [] }

/-- A fresh NDJSON writer. -/
def ndjsonWriter : Writer := NewWriterWithLimit .ndjson 10000

/-- A fresh bundle writer with a ceiling of one record. -/
def bundleWriter1 : Writer := NewWriterWithLimit .bundle 1

/-- The consumer's starting state over a given writer. -/
def initState (w : Writer) : RunState :=
  { writer := w, rowCount := 0, errorCount := 0, validationErrorCount := 0 }

/-- A worker result carrying the unknown-resource-type transform error
(the error Transform produces for cfgUnknown). -/
def resErrUnknown : ResultMsg :=
  { resource := []
    validationErrors := []
    err := some ("failed to create resource: unsupported resource type".toList)
    rowNumber := 2 }

/-- Error-free worker results. -/
def resOkA : ResultMsg :=
  { resource := "RA".toList, validationErrors := [], err := none, rowNumber := 3 }

def resOkB : ResultMsg :=
  { resource := "RB".toList, validationErrors := [], err := none, rowNumber := 4 }

def resOkC : ResultMsg :=
  { resource := "RC".toList, validationErrors := [], err := none, rowNumber := 5 }

/-- The one-record bundle writer after its first accepted Write (the
warning threshold of a ceiling of one is zero, so the flag flips). -/
def bundleW1Full : Writer :=
  { bundleWriter1 with warnedLimit := true, resources := ["R1".toList] }

/-- A freshly opened reader over a header line and three data records. -/
def sampleReader : CsvReader :=
  { headers := ["name".toList]
    rowNumber := 1
    pending := [["a".toList], ["b".toList], ["c".toList]] }

/-!
Helper lemmas shared by the claim theorems.
-/

/-- strings.Split never yields an empty part list. -/
theorem splitOnChar_ne_nil (c : Char) (s : Str) : splitOnChar c s ≠ [] := by
  cases s with
  | nil => simp [splitOnChar]
  | cons x xs =>
    simp only [splitOnChar]
    split
    · simp
    · split <;> simp

/-- The segment loop yields one segment per part. -/
theorem parseSegments_length : ∀ ps segs, parseSegments ps = .ok segs →
    segs.length = ps.length := by
  intro ps
  induction ps with
  | nil =>
    intro segs h
    simp only [parseSegments] at h
    cases h
    rfl
  | cons p ps ih =>
    intro segs h
    simp only [parseSegments] at h
    cases hp : parseSegment p with
    | error e => rw [hp] at h; cases h
    | ok seg =>
      rw [hp] at h
      cases hr : parseSegments ps with
      | error e => rw [hr] at h; cases h
      | ok rest =>
        rw [hr] at h
        cases h
        simp [ih rest hr]

/-- Every produced segment comes from some part. -/
theorem parseSegments_mem : ∀ ps segs, parseSegments ps = .ok segs →
    ∀ seg ∈ segs, ∃ p ∈ ps, parseSegment p = .ok seg := by
  intro ps
  induction ps with
  | nil =>
    intro segs h
    simp only [parseSegments] at h
    cases h
    simp
  | cons p ps ih =>
    intro segs h
    simp only [parseSegments] at h
    cases hp : parseSegment p with
    | error e => rw [hp] at h; cases h
    | ok seg0 =>
      rw [hp] at h
      cases hr : parseSegments ps with
      | error e => rw [hr] at h; cases h
      | ok rest =>
        rw [hr] at h
        cases h
        intro seg hseg
        rcases List.mem_cons.mp hseg with h1 | h2
        · exact ⟨p, List.mem_cons_self _ _, h1 ▸ hp⟩
        · obtain ⟨q, hq, hqs⟩ := ih rest hr seg h2
          exact ⟨q, List.mem_cons_of_mem _ hq, hqs⟩

/-- An accepted segment without an index keeps its whole (non-empty)
part as field name. -/
theorem parseSegment_unindexed (p : Str) (seg : PathSegment)
    (h : parseSegment p = .ok seg) (hn : seg.index = none) : seg.field ≠ [] := by
  simp only [parseSegment] at h
  split at h
  · cases h
  · split at h
    · split at h
      · split at h
        · cases h
        · split at h
          · cases h
          · split at h
            · cases h
            · split at h
              · cases h
              · cases h; simp at hn
      · cases h
      · cases h
    · cases h
      intro hf
      simp_all

/-- An accepted index passed both bounds checks. -/
theorem parseSegment_index_bounds (p : Str) (seg : PathSegment)
    (h : parseSegment p = .ok seg) : ∀ i, seg.index = some i → 0 ≤ i ∧ i ≤ 1000 := by
  simp only [parseSegment] at h
  split at h
  · cases h
  · split at h
    · split at h
      · split at h
        · cases h
        · split at h
          · cases h
          · split at h
            · cases h
            · split at h
              · cases h
              · cases h
                intro i hi
                simp only [Option.some.injEq] at hi
                subst hi
                omega
      · cases h
      · cases h
    · cases h
      intro i hi
      simp at hi

/-- The tokenizer's tokens spell the input back out. -/
theorem tokText_flatten (s : Str) : ∀ st,
    (tokAux st s).flatMap tokText = statePending st ++ s := by
  induction s with
  | nil =>
    intro st
    cases st <;> simp [tokAux, tokText, statePending]
  | cons c rest ih =>
    intro st
    cases st with
    | normal =>
      simp only [tokAux]
      split
      · rw [ih .dollar]; simp_all [statePending]
      · simp [tokText, ih .normal, statePending]
    | dollar =>
      simp only [tokAux]
      split
      · rw [ih (.body [])]; simp_all [statePending]
      · split
        · simp [tokText, ih .dollar, statePending]; simp_all
        · simp [tokText, ih .normal, statePending]
    | body acc =>
      simp only [tokAux]
      split
      · split
        · simp_all [tokText, ih .normal, statePending]
        · simp_all [tokText, ih .normal, statePending]
      · rw [ih (.body (c :: acc))]; simp [statePending]

/-- The missing-name pass is the variable pass filtered to the names
the row lacks. -/
theorem missOf_eq_filter (row : List (Str × Str)) : ∀ toks : List Tok,
    toks.flatMap (missOf row)
      = (toks.flatMap (fun t => match t with | .var n => [n] | .lit _ => [])).filter
          (fun n => (lookupA row n).isNone) := by
  intro toks
  induction toks with
  | nil => simp
  | cons t rest ih =>
    cases t with
    | lit x => simp [missOf, ih]
    | var n =>
      simp only [List.flatMap_cons, List.filter_append, ih]
      cases h : lookupA row n <;> simp [missOf, h]

/-- With no variable tokens, rendering is the identity pass. -/
theorem render_of_no_vars (row : List (Str × Str)) : ∀ toks : List Tok,
    toks.flatMap (fun t => match t with | .var n => [n] | .lit _ => []) = [] →
    toks.flatMap (renderTok row) = toks.flatMap tokText := by
  intro toks
  induction toks with
  | nil => simp
  | cons t rest ih =>
    cases t with
    | lit x =>
      intro h
      simp only [List.flatMap_cons] at h ⊢
      simp only [renderTok, tokText]
      rw [ih (by simpa using h)]
    | var n =>
      intro h
      simp at h

/-- The reported missing-name list of a substitution. -/
theorem subst_missing (template : Str) (row : List (Str × Str)) :
    (SubstituteVariables template row).2
      = (extractVariables template).filter (fun n => (lookupA row n).isNone) :=
  missOf_eq_filter row (tokenize template)

/-- Row numbers handed out by the read loop count up from the start. -/
theorem readLoop_numbers (headers : List Str) :
    ∀ (pending : List (List Str)) (k : Nat),
      (readLoop headers k pending).map (fun r => r.rowNumber)
        = (List.range pending.length).map (fun i => i + k + 1) := by
  intro pending
  induction pending with
  | nil => intro k; simp [readLoop]
  | cons rc rest ih =>
    intro k
    have hf : ((fun i => i + k + 1) ∘ (fun i => i + 1)) = (fun i => i + (k + 1) + 1) := by
      funext i
      simp [Function.comp]
      omega
    simp only [readLoop, List.map_cons, List.length_cons, List.range_succ_eq_map,
      List.map_map, hf, ih (k + 1)]
    simp

/-!
The claims.
-/

/-- Claim C1, counterexample: the decoder of the custom ObservationStatus
type rejects the literal 2 (it is no status code), yet set on the status
field succeeds, storing the integer 2 through the kind-based fallback —
the decoder is not used exclusively and set does not fail. -/
theorem C1_counterexample :
    obsStatusCodes.indexOf? ("2".toList) = none
    ∧ (setFieldValue tObsPtr obsRoot ("status".toList) ("2".toList)).map statusOf
        = .ok (some (.int 2)) :=
  ⟨rfl, rfl⟩

/-- Claim C1 (amended): for a terminal field of a custom-codable type,
setFinalValue attempts the type's own decoder on the literal and accepts
on decoder success (storing the matched constant); when the decoder
rejects the literal it does not fail but falls back to the kind-based
coercion of the type's underlying kind. -/
theorem C1_custom_decode_first (codes : List Str) (u : GoType) (v : GoVal) (value : Str) :
    (∀ i, codes.indexOf? value = some i →
        setFinalValue (.custom codes u) v value = .ok (.int (i : Int)))
    ∧ (codes.indexOf? value = none →
        setFinalValue (.custom codes u) v value = coerceKind u value) := by
  constructor
  · intro i h
    simp [setFinalValue, h]
  · intro h
    simp [setFinalValue, h, coerceKind]

/-- Claim C1, witness: the decoder accepts final (constant 2); the
rejected literal 2 goes to the int coercion, which accepts it. -/
theorem C1_custom_decode_first_witness :
    setFinalValue ObservationStatusT (.int 0) ("final".toList) = .ok (.int 2)
    ∧ setFinalValue ObservationStatusT (.int 0) ("2".toList) = coerceKind .int ("2".toList)
    ∧ coerceKind .int ("2".toList) = .ok (.int 2) := by
  refine ⟨?_, ?_, rfl⟩
  · exact (C1_custom_decode_first obsStatusCodes .int (.int 0) ("final".toList)).1 2 rfl
  · exact (C1_custom_decode_first obsStatusCodes .int (.int 0) ("2".toList)).2 rfl

/-- Claim C2, counterexample: the consumer loop of main.go treats the
unknown-resource-type error (the very error Transform returns) as a
per-row warning and keeps going — after it, the next result is still
written to the sink and counted; likewise after the capacity error of
the bundle writer the remaining results are still processed (rowCount
reaches 3 with two counted errors).  The run does not stop. -/
theorem C2_counterexample :
    Transform sampleRegistry cfgUnknown [] 2
        = .error "failed to create resource: unsupported resource type"
    ∧ (consumeResults ("error".toList) (initState ndjsonWriter) [resErrUnknown, resOkA]).writer.sink
        = ["RA".toList, ['\n']]
    ∧ (consumeResults ("error".toList) (initState ndjsonWriter) [resErrUnknown, resOkA]).rowCount = 1
    ∧ (consumeResults ("error".toList) (initState ndjsonWriter) [resErrUnknown, resOkA]).errorCount = 1
    ∧ (consumeResults ("error".toList) (initState bundleWriter1) [resOkA, resOkB, resOkC]).writer.resources
        = ["RA".toList]
    ∧ (consumeResults ("error".toList) (initState bundleWriter1) [resOkA, resOkB, resOkC]).rowCount = 3
    ∧ (consumeResults ("error".toList) (initState bundleWriter1) [resOkA, resOkB, resOkC]).errorCount = 2 :=
  ⟨rfl, rfl, rfl, rfl, rfl, rfl, rfl⟩

/-- Claim C2 (amended): an unknown resource type surfaces as a per-row
transform error and the bundle capacity ceiling as a per-resource write
error; the consumer logs and counts them and continues — over an NDJSON
writer with validation-clean results, every erroneous result is counted
and every error-free result is still emitted, whatever came before it. -/
theorem C2_errors_row_scoped (lvl : Str) :
    ∀ (results : List ResultMsg) (st : RunState),
      st.writer.format = .ndjson →
      (∀ r ∈ results, r.validationErrors = []) →
      (consumeResults lvl st results).errorCount
          = st.errorCount + (results.filter (fun r => r.err.isSome)).length
      ∧ (consumeResults lvl st results).writer.sink
          = st.writer.sink
            ++ (results.filter (fun r => r.err.isNone)).flatMap
                (fun r => [r.resource, ['\n']]) := by
  intro results
  induction results with
  | nil =>
    intro st hfmt hv
    simp [consumeResults]
  | cons r rest ih =>
    intro st hfmt hv
    have hvr : r.validationErrors = [] := hv r (List.mem_cons_self _ _)
    have hvrest : ∀ x ∈ rest, x.validationErrors = [] :=
      fun x hx => hv x (List.mem_cons_of_mem _ hx)
    cases herr : r.err with
    | some e =>
      have hco : consumeOne lvl st r = { st with errorCount := st.errorCount + 1 } := by
        simp [consumeOne, herr]
      have hstep : consumeResults lvl st (r :: rest)
          = consumeResults lvl { st with errorCount := st.errorCount + 1 } rest := by
        simp [consumeResults, hco]
      rw [hstep]
      obtain ⟨he, hs⟩ := ih { st with errorCount := st.errorCount + 1 }
        (by simpa using hfmt) hvrest
      refine ⟨?_, ?_⟩
      · rw [he]; simp [herr]; omega
      · rw [hs]; simp [herr]
    | none =>
      have hco : consumeOne lvl st r
          = { st with
                writer := { st.writer with sink := st.writer.sink ++ [r.resource, ['\n']] }
                rowCount := st.rowCount + 1 } := by
        simp [consumeOne, herr, hvr, Writer.WriteRes, hfmt]
      have hstep : consumeResults lvl st (r :: rest)
          = consumeResults lvl
              { st with
                  writer := { st.writer with sink := st.writer.sink ++ [r.resource, ['\n']] }
                  rowCount := st.rowCount + 1 } rest := by
        simp [consumeResults, hco]
      rw [hstep]
      obtain ⟨he, hs⟩ := ih
        { st with
            writer := { st.writer with sink := st.writer.sink ++ [r.resource, ['\n']] }
            rowCount := st.rowCount + 1 } (by simpa using hfmt) hvrest
      refine ⟨?_, ?_⟩
      · rw [he]; simp [herr]
      · rw [hs]; simp [herr, List.append_assoc]

/-- Claim C2, witness: the amended theorem at the two-result stream with
the unknown-resource-type error first. -/
theorem C2_errors_row_scoped_witness :
    (consumeResults ("error".toList) (initState ndjsonWriter) [resErrUnknown, resOkA]).errorCount
        = 0 + 1
    ∧ (consumeResults ("error".toList) (initState ndjsonWriter) [resErrUnknown, resOkA]).writer.sink
        = [] ++ ["RA".toList, ['\n']] := by
  have h := C2_errors_row_scoped ("error".toList) [resErrUnknown, resOkA]
    (initState ndjsonWriter) rfl (by intro x hx; fin_cases hx <;> rfl)
  exact ⟨by rw [h.1]; rfl, by rw [h.2]; rfl⟩

/-- Claim C3, counterexample: a configuration whose default template
references a column absent from the attached ColumnSet passes
ValidateColumns (defaults are not inspected), and the per-row failure
the claim rules out then occurs: Transform fails on the first row. -/
theorem C3_counterexample :
    ValidateColumns cfgDefaultMissing = .ok ()
    ∧ cfgDefaultMissing.defaults = [("status".toList, "${missing}".toList)]
    ∧ extractVariables ("${missing}".toList) = ["missing".toList]
    ∧ cfgDefaultMissing.csvColumns.contains ("missing".toList) = false
    ∧ Transform sampleRegistry cfgDefaultMissing [] 2
        = .error "failed to substitute variables in default" :=
  ⟨rfl, rfl, rfl, rfl, rfl⟩

/-- Claim C3 (amended): spec validation checks the id column and every
mapping template — not the defaults — so after a passed validation the
id column is a known column and no mapping substitution can fail on a
row that covers the ColumnSet; a default template may still fail
per-row. -/
theorem C3_validated_mappings (m : MappingConfig) (h : ValidateColumns m = .ok ()) :
    (m.idColumn ≠ [] → m.csvColumns.contains m.idColumn = true)
    ∧ (∀ pt ∈ m.mappings, ∀ row : List (Str × Str),
        (∀ c, m.csvColumns.contains c = true → (lookupA row c).isSome) →
        (SubstituteVariables pt.2 row).2 = []) := by
  have hmiss : missingColumns m = [] := by
    simp only [ValidateColumns] at h
    split at h
    · assumption
    · cases h
  simp only [missingColumns, List.append_eq_nil] at hmiss
  obtain ⟨hid, hfil⟩ := hmiss
  constructor
  · intro hne
    by_contra hc
    rw [if_pos ⟨hne, by simpa using hc⟩] at hid
    cases hid
  · intro pt hpt row hrow
    rw [subst_missing pt.2 row, List.filter_eq_nil_iff]
    intro v hv
    have hvmem : v ∈ (m.mappings.flatMap (fun pv => extractVariables pv.2)) :=
      List.mem_flatMap.mpr ⟨pt, hpt, hv⟩
    have hcont : m.csvColumns.contains v = true := by
      have := List.filter_eq_nil_iff.mp hfil v hvmem
      simpa using this
    have := hrow v hcont
    simp [Option.isNone_iff_eq_none]
    exact Option.isSome_iff_ne_none.mp this

/-- Claim C3, witness: the validated cfg8 mapping substitutes cleanly
on a row carrying the status column. -/
theorem C3_validated_mappings_witness :
    (SubstituteVariables ("${status}".toList) [("status".toList, "final".toList)]).2 = [] := by
  have h := (C3_validated_mappings cfg8 rfl).2 ("status".toList, "${status}".toList)
    (by simp [cfg8]) [("status".toList, "final".toList)] ?_
  · exact h
  · intro c hc
    have : c = "status".toList := by simpa [cfg8] using hc
    subst this
    rfl

/-- Claim C4, counterexample: parse accepts a path whose only part is a
bare bracketed index, yielding a segment with an empty field name. -/
theorem C4_counterexample :
    ParsePath ("[0]".toList) = .ok [{ field := [], index := some 0 }] := rfl

/-- Claim C4 (amended): a successful parse yields a non-empty segment
list, and every segment parsed without bracket notation has a non-empty
field name; a bracketed part may leave the field name empty. -/
theorem C4_parse_invariants (path : Str) (segs : List PathSegment)
    (h : ParsePath path = .ok segs) :
    segs ≠ [] ∧ ∀ seg ∈ segs, seg.index = none → seg.field ≠ [] := by
  simp only [ParsePath] at h
  split at h
  · cases h
  · split at h
    · cases h
    · split at h
      · cases h
      · split at h
        · cases h
        · constructor
          · intro hnil
            have hlen := parseSegments_length _ _ h
            rw [hnil] at hlen
            have := splitOnChar_ne_nil '.' path
            cases hsp : splitOnChar '.' path with
            | nil => exact this hsp
            | cons a b => rw [hsp] at hlen; simp at hlen
          · intro seg hseg hidx
            obtain ⟨p, _, hp⟩ := parseSegments_mem _ _ h seg hseg
            exact parseSegment_unindexed p seg hp hidx

/-- Claim C4, witness: the invariants at the parsed path code. -/
theorem C4_parse_invariants_witness :
    ([{ field := "code".toList, index := (none : Option Int) }] : List PathSegment) ≠ []
      ∧ ∀ seg ∈ ([{ field := "code".toList, index := (none : Option Int) }] : List PathSegment),
          seg.index = none → seg.field ≠ [] :=
  C4_parse_invariants ("code".toList) _ rfl

/-- Claim C5, counterexample: the index text 1x is not numeric, yet
parse accepts it with index 1 — Sscanf reads the leading digits and
ignores the rest, so non-numeric indices are not all rejected. -/
theorem C5_counterexample :
    ParsePath ("coding[1x]".toList) = .ok [{ field := "coding".toList, index := some 1 }] := rfl

/-- Claim C5 (amended): every index parse accepts lies in 0..1000 —
negative and above-1000 indices and a missing closing bracket are
rejected, as is an index text without leading digits; an index text
whose leading digits parse is accepted with their value, trailing
characters ignored; coding with index 1001 fails while 1000 succeeds. -/
theorem C5_index_bounds :
    (∀ path segs, ParsePath path = .ok segs →
        ∀ seg ∈ segs, ∀ i, seg.index = some i → 0 ≤ i ∧ i ≤ 1000)
    ∧ ParsePath ("coding[1001]".toList) = .error "array index exceeds maximum of 1000 in path"
    ∧ ParsePath ("coding[1000]".toList) = .ok [{ field := "coding".toList, index := some 1000 }]
    ∧ ParsePath ("coding[-1]".toList) = .error "negative array index not allowed in path"
    ∧ ParsePath ("coding[abc]".toList) = .error "invalid array index in path"
    ∧ ParsePath ("coding[5".toList) = .error "invalid array notation in path" := by
  refine ⟨?_, rfl, rfl, rfl, rfl, rfl⟩
  intro path segs h seg hseg i hi
  simp only [ParsePath] at h
  split at h
  · cases h
  · split at h
    · cases h
    · split at h
      · cases h
      · split at h
        · cases h
        · obtain ⟨p, _, hp⟩ := parseSegments_mem _ _ h seg hseg
          exact parseSegment_index_bounds p seg hp i hi

/-- Claim C5, witness: the bound at the accepted index 1000. -/
theorem C5_index_bounds_witness :
    (0 : Int) ≤ 1000 ∧ (1000 : Int) ≤ 1000 :=
  C5_index_bounds.1 ("coding[1000]".toList) [{ field := "coding".toList, index := some 1000 }]
    rfl { field := "coding".toList, index := some 1000 } (by simp) 1000 rfl

/-- Claim C6: substitution succeeds exactly when every name referenced
by a placeholder is a key of the row (an empty-string value counts as
present); the missing-name list reported on failure is the full set of
referenced names absent from the row, in match order, not just the
first; a template with no placeholder matches substitutes to itself. -/
theorem C6_substitution (template : Str) (row : List (Str × Str)) :
    ((SubstituteVariables template row).2 = []
        ↔ ∀ n ∈ extractVariables template, (lookupA row n).isSome)
    ∧ (SubstituteVariables template row).2
        = (extractVariables template).filter (fun n => (lookupA row n).isNone)
    ∧ (extractVariables template = [] → (SubstituteVariables template row).1 = template) := by
  have hfil : (SubstituteVariables template row).2
      = (extractVariables template).filter (fun n => (lookupA row n).isNone) :=
    missOf_eq_filter row (tokenize template)
  refine ⟨?_, hfil, ?_⟩
  · rw [hfil, List.filter_eq_nil_iff]
    constructor
    · intro h n hn
      have := h n hn
      simp only [Option.isNone_iff_eq_none] at this ⊢
      exact Option.isSome_iff_ne_none.mpr this
    · intro h n hn
      have := h n hn
      simp only [Option.isNone_iff_eq_none]
      exact Option.isSome_iff_ne_none.mp this
  · intro hempty
    have h1 : (SubstituteVariables template row).1
        = (tokenize template).flatMap (renderTok row) := rfl
    rw [h1, render_of_no_vars row (tokenize template) hempty]
    simpa [statePending] using tokText_flatten template .normal

/-- Claim C6, witness: the spec's examples — one missing name reported;
an empty-string value substitutes cleanly; a placeholder-free template
passes through unchanged. -/
theorem C6_substitution_witness :
    (SubstituteVariables ("${name} ${missing}".toList) [("name".toList, "John".toList)]).2
      = ["missing".toList]
    ∧ (SubstituteVariables ("${name}-${empty}".toList)
        [("name".toList, "John".toList), ("empty".toList, [])]).1 = "John-".toList
    ∧ (SubstituteVariables ("plain text".toList) []).1 = "plain text".toList := by
  refine ⟨?_, rfl, ?_⟩
  · have h := (C6_substitution ("${name} ${missing}".toList) [("name".toList, "John".toList)]).2.1
    rw [h]; rfl
  · exact (C6_substitution ("plain text".toList) []).2.2 rfl

/-- Claim C7: writing code.coding index 1 then index 0 on a fresh
record equals writing them in the opposite order, and the result is a
two-element array holding first and second in slots 0 and 1 — slice
growth preserves existing elements and is order-independent. -/
theorem C7_order_independent :
    applyTwo ("code.coding[1].code".toList) ("second".toList)
        ("code.coding[0].code".toList) ("first".toList)
      = applyTwo ("code.coding[0].code".toList) ("first".toList)
        ("code.coding[1].code".toList) ("second".toList)
    ∧ (applyTwo ("code.coding[1].code".toList) ("second".toList)
        ("code.coding[0].code".toList) ("first".toList)).map obsCodingCodes
      = .ok [some ("first".toList), some ("second".toList)] :=
  ⟨rfl, rfl⟩

/-- Claim C8: defaults are applied before mappings and a mapping whose
substituted value is empty is skipped entirely: the status default
preliminary (constant 1) survives an empty status row value, while the
value final (constant 2) overrides it. -/
theorem C8_defaults_then_mappings :
    (∀ (t : GoType) (row : List (Str × Str)) (path tmpl : Str)
        (rest : List (Str × Str)) (res : GoVal),
        (SubstituteVariables tmpl row).2 = [] →
        (SubstituteVariables tmpl row).1 = [] →
        applyMappings t row ((path, tmpl) :: rest) res = applyMappings t row rest res)
    ∧ obsStatusCodes.indexOf? ("final".toList) = some 2
    ∧ obsStatusCodes.indexOf? ("preliminary".toList) = some 1
    ∧ (Transform sampleRegistry cfg8 [("status".toList, "final".toList)] 2).map statusOf
        = .ok (some (.int 2))
    ∧ (Transform sampleRegistry cfg8 [("status".toList, [])] 2).map statusOf
        = .ok (some (.int 1)) := by
  refine ⟨?_, rfl, rfl, rfl, rfl⟩
  intro t row path tmpl rest res h2 h1
  simp only [applyMappings, h2, h1]
  simp

/-- Claim C8, witness: the skip rule at the empty-substituting status
mapping over a fresh Observation. -/
theorem C8_defaults_then_mappings_witness :
    applyMappings tObsPtr [("status".toList, [])]
        [("status".toList, "${status}".toList)] obsRoot = .ok obsRoot := by
  have h := C8_defaults_then_mappings.1 tObsPtr [("status".toList, [])]
    ("status".toList) ("${status}".toList) [] obsRoot rfl rfl
  rw [h]
  rfl

/-- Claim C9: in bundle format an accepted Write only buffers (sink
untouched) and at the ceiling Write errors; Close of an unclosed
non-empty bundle writer emits the whole bundle as one chunk; in NDJSON
format every Write emits its record (and newline) immediately. -/
theorem C9_writer_buffering :
    (∀ (w : Writer) (data : Str) (w' : Writer), w.format = .bundle →
        w.WriteRes data = .ok w' →
        w'.sink = w.sink ∧ w'.resources = w.resources ++ [data])
    ∧ (∀ (w : Writer) (data : Str), w.format = .bundle →
        w.resources.length ≥ w.maxResources →
        w.WriteRes data = .error "resource limit exceeded")
    ∧ (∀ w : Writer, w.format = .bundle → w.closed = false → w.resources ≠ [] →
        w.CloseW = { w with closed := true, sink := w.sink ++ [bundleRender w.resources] })
    ∧ (∀ (w : Writer) (data : Str), w.format = .ndjson →
        w.WriteRes data = .ok { w with sink := w.sink ++ [data, ['\n']] }) := by
  refine ⟨?_, ?_, ?_, ?_⟩
  · intro w data w' hfmt h
    simp only [Writer.WriteRes, hfmt] at h
    split at h
    · split at h
      · cases h
      · cases h; exact ⟨rfl, rfl⟩
    · split at h
      · cases h
      · cases h; exact ⟨rfl, rfl⟩
  · intro w data hfmt hlen
    simp only [Writer.WriteRes, hfmt]
    split_ifs <;> rfl
  · intro w hfmt hclosed hne
    simp [Writer.CloseW, hclosed, hfmt, hne]
  · intro w data hfmt
    simp [Writer.WriteRes, hfmt]

/-- Claim C9, witness: the one-record bundle writer buffers its record
without sink output, then Close emits the single bundle chunk; the
NDJSON writer emits immediately. -/
theorem C9_writer_buffering_witness :
    bundleWriter1.WriteRes ("R1".toList) = .ok bundleW1Full
    ∧ bundleW1Full.CloseW
        = { bundleW1Full with closed := true, sink := [bundleRender ["R1".toList]] }
    ∧ ndjsonWriter.WriteRes ("R1".toList)
        = .ok { ndjsonWriter with sink := ["R1".toList, ['\n']] } := by
  refine ⟨by rfl, ?_, ?_⟩
  · have h := C9_writer_buffering.2.2.1 bundleW1Full rfl rfl (by simp [bundleW1Full])
    rw [h]
    rfl
  · have h := C9_writer_buffering.2.2.2 ndjsonWriter ("R1".toList) rfl
    rw [h]
    rfl

/-- Claim C10: from a fresh reader the i-th data row carries row number
i plus 2 — the header line is row 1, the first data row is row 2 and
each subsequent row number is one greater, a file line numbering. -/
theorem C10_row_numbers (records : List (List Str)) (r : CsvReader)
    (h : NewReader records = some r) :
    (readAllRows r).map (fun row => row.rowNumber)
      = (List.range r.pending.length).map (fun i => i + 2) := by
  cases records with
  | nil => cases h
  | cons hd rest =>
    simp only [NewReader, Option.some.injEq] at h
    subst h
    simpa [readAllRows] using readLoop_numbers hd rest 1

/-- Claim C10, witness: three data rows number 2, 3, 4. -/
theorem C10_row_numbers_witness :
    (readAllRows sampleReader).map (fun row => row.rowNumber) = [2, 3, 4] := by
  have h := C10_row_numbers [["name".toList], ["a".toList], ["b".toList], ["c".toList]]
    sampleReader rfl
  rw [h]
  rfl

end Csv2Fhir
